import Mathlib

/-!
Shallow embedding of the osu-topscores-scrapper repository
(src/error.rs, src/osu_api.rs, src/main.rs).

External crates (hyper for transport, serde_json for JSON, tokio for the
async runtime, chrono for dates) are not repository code; they are
modelled as explicit parameters: a transport result is a status code
paired with raw body bytes, a serde decoder for a type T is a function
from bytes to Except String T, and a UTC timestamp is an integer.
-/

namespace OsuScrapper

instance {ε α : Type} [DecidableEq ε] [DecidableEq α] :
    DecidableEq (Except ε α) := fun x y =>
  match x, y with
  | .ok a, .ok b => decidable_of_iff (a = b) (by simp)
  | .error a, .error b => decidable_of_iff (a = b) (by simp)
  | .ok _, .error _ => isFalse (fun h => Except.noConfusion h)
  | .error _, .ok _ => isFalse (fun h => Except.noConfusion h)

/-- Raw response body bytes (hyper body Bytes), modelled as a byte list. -/
abbrev Bytes := List Nat

/-- error.rs: struct ApiErrorResponse, the structured error body of the API. -/
structure ApiErrorResponse where
  error : String
deriving DecidableEq

/-- Transport-level failures produced by the external hyper crate:
hyper::Error from sending a request, hyper::http::Error from building one.
Both are converted into OsuApiError by the From impls in error.rs. -/
inductive TransportError where
  | hyperError
  | hyperHttpError
deriving DecidableEq

/-- error.rs: enum OsuApiError. The inner hyper error values are external
and carry no information the program inspects, so those constructors are
nullary here; the inner serde_json::Error of ParsingError is carried as
its message string. -/
inductive OsuApiError where
  | HyperError
  | HyperHttpError
  | ApiError (inner : ApiErrorResponse)
  | ParsingError (inner : String) (body : Bytes)
  | BadRequest
  | ServiceUnavailable
  | RateLimited
  | NoToken
deriving DecidableEq

/-- error.rs: the two From impls, lifting transport errors into OsuApiError. -/
def TransportError.lift : TransportError → OsuApiError
  | .hyperError => .HyperError
  | .hyperHttpError => .HyperHttpError

/-- osu_api.rs: bitflags struct OsuMods, a u32 bit mask.  All declared
flag patterns fit far below 2 to the 32, and the program only ever
combines declared flags with bitwise or, so no wrap-around can occur and
the mask is carried as a plain natural number. -/
structure OsuMods where
  bits : Nat
deriving DecidableEq

namespace OsuMods

def NOMOD : OsuMods := ⟨0⟩
def NOFAIL : OsuMods := ⟨1⟩
def EASY : OsuMods := ⟨2⟩
def TOUCHDEVICE : OsuMods := ⟨4⟩
def HIDDEN : OsuMods := ⟨8⟩
def HARDROCK : OsuMods := ⟨16⟩
def SUDDENDEATH : OsuMods := ⟨32⟩
def DOUBLETIME : OsuMods := ⟨64⟩
def RELAX : OsuMods := ⟨128⟩
def HALFTIME : OsuMods := ⟨256⟩
def NIGHTCORE : OsuMods := ⟨512 ||| DOUBLETIME.bits⟩
def FLASHLIGHT : OsuMods := ⟨1024⟩
def SPUNOUT : OsuMods := ⟨4096⟩
def PERFECT : OsuMods := ⟨16384 ||| SUDDENDEATH.bits⟩
def FADEIN : OsuMods := ⟨1048576⟩
def SCOREV2 : OsuMods := ⟨536870912⟩
def MIRROR : OsuMods := ⟨1073741824⟩

/-- bitflags: OsuMods::empty(), also the Default. -/
def empty : OsuMods := ⟨0⟩

/-- bitflags: the | operator on flag sets. -/
def union (a b : OsuMods) : OsuMods := ⟨a.bits ||| b.bits⟩

/-- bitflags: self.contains(other), true when every bit of other is set. -/
def contains (a b : OsuMods) : Bool := a.bits &&& b.bits == b.bits

/-- bitflags: self.is_empty(). -/
def is_empty (a : OsuMods) : Bool := a.bits == 0

/-- osu_api.rs: impl ToString for OsuMods.  The Rust code pushes acronym
string slices onto a growing String; the same character sequence is built
here as a concatenation of two-character chunks. -/
def to_string (m : OsuMods) : String :=
  if m.is_empty then "NM"
  else String.mk (
    (if m.contains NOFAIL then ['N', 'F'] else []) ++
    (if m.contains EASY then ['E', 'Z'] else []) ++
    (if m.contains TOUCHDEVICE then ['T', 'D'] else []) ++
    (if m.contains HIDDEN then ['H', 'D'] else []) ++
    (if m.contains DOUBLETIME then
      (if m.contains NIGHTCORE then ['N', 'C'] else ['D', 'T'])
     else []) ++
    (if m.contains HALFTIME then ['H', 'T'] else []) ++
    (if m.contains FLASHLIGHT then ['F', 'L'] else []) ++
    (if m.contains HARDROCK then ['H', 'R'] else []) ++
    (if m.contains SUDDENDEATH then ['S', 'D'] else []) ++
    (if m.contains SPUNOUT then ['S', 'O'] else []) ++
    (if m.contains PERFECT then ['P', 'F'] else []) ++
    (if m.contains MIRROR then ['M', 'R'] else []))

end OsuMods

/-- osu_api.rs: fn cut(source, n), which yields successive n-character
chunks of a string (the last chunk may be shorter).  The source is
generic in n but its only call site uses n = 2 (a zero n would not
terminate, in Rust it would panic on the n - 1 subtraction), so the
n = 2 instance is embedded. -/
def cut2 : List Char → List (List Char)
  | [] => []
  | [a] => [[a]]
  | a :: b :: rest => [a, b] :: cut2 rest

/-- osu_api.rs: the loop body of the FromStr impl for OsuMods, matching
one acronym chunk and or-ing the matched flag in (unknown chunks are
silently kept as-is).  The Rust match tries its literal patterns in
order; embedded as the corresponding chain of equality tests. -/
def modFromAcr (flags : OsuMods) (ab : List Char) : OsuMods :=
  if ab = ['N', 'M'] then flags.union OsuMods.NOMOD
  else if ab = ['N', 'F'] then flags.union OsuMods.NOFAIL
  else if ab = ['E', 'Z'] then flags.union OsuMods.EASY
  else if ab = ['T', 'D'] then flags.union OsuMods.TOUCHDEVICE
  else if ab = ['H', 'D'] then flags.union OsuMods.HIDDEN
  else if ab = ['H', 'R'] then flags.union OsuMods.HARDROCK
  else if ab = ['S', 'D'] then flags.union OsuMods.SUDDENDEATH
  else if ab = ['D', 'T'] then flags.union OsuMods.DOUBLETIME
  else if ab = ['R', 'X'] then flags.union OsuMods.RELAX
  else if ab = ['H', 'T'] then flags.union OsuMods.HALFTIME
  else if ab = ['N', 'C'] then flags.union OsuMods.NIGHTCORE
  else if ab = ['F', 'L'] then flags.union OsuMods.FLASHLIGHT
  else if ab = ['S', 'O'] then flags.union OsuMods.SPUNOUT
  else if ab = ['P', 'F'] then flags.union OsuMods.PERFECT
  else if ab = ['F', 'D'] then flags.union OsuMods.FADEIN
  else flags

/-- The per-character mapping of the external Rust char::to_uppercase,
which can expand one character into several: the ASCII mapping plus the
Latin special-casing expansions (sharp s and the f-ligatures).  Rust
also applies simple one-to-one mappings to other non-ASCII letters;
those tables are external data and such characters are kept unchanged
here, so the model is exact on ASCII strings and on the expansion
characters listed. -/
def uppercaseChar (c : Char) : List Char :=
  if c = 'ß' then ['S', 'S']
  else if c = 'ﬀ' then ['F', 'F']
  else if c = 'ﬁ' then ['F', 'I']
  else if c = 'ﬂ' then ['F', 'L']
  else if c = 'ﬃ' then ['F', 'F', 'I']
  else if c = 'ﬄ' then ['F', 'F', 'L']
  else if c = 'ﬅ' then ['S', 'T']
  else if c = 'ﬆ' then ['S', 'T']
  else [c.toUpper]

/-- The external Rust str::to_uppercase: uppercase every character,
concatenating the possibly multi-character results. -/
def to_uppercase (s : List Char) : List Char := s.flatMap uppercaseChar

/-- osu_api.rs: impl FromStr for OsuMods (the lenient decoder).  The Rust
code uppercases the whole string, chunks the result into two-character
pieces and folds the chunk match over them; it never returns an error.
The chunking happens after uppercasing, so an expansion character shifts
the chunk boundaries of everything after it. -/
def OsuMods.from_str (s : String) : Except OsuApiError OsuMods :=
  let up := to_uppercase s.toList
  Except.ok ((cut2 up).foldl modFromAcr OsuMods.empty)

/-- The error value produced by the serde Error::invalid_value for the
strict visitor. -/
inductive DeError where
  | invalidValue (unexpected : String) (expected : String)
deriving DecidableEq

/-- osu_api.rs: OsuModsVisitor::visit_str, the strict single-value
decoder used when a mods field arrives as one string.  It matches the
exact input against the acronym table (no case folding; the Rust match
tries its literal patterns in order, embedded as the corresponding chain
of equality tests) and any other string is a hard decode error. -/
def visit_str (v : String) : Except DeError OsuMods :=
  if v.toList = ['N', 'M'] then Except.ok OsuMods.NOMOD
  else if v.toList = ['N', 'F'] then Except.ok OsuMods.NOFAIL
  else if v.toList = ['E', 'Z'] then Except.ok OsuMods.EASY
  else if v.toList = ['T', 'D'] then Except.ok OsuMods.TOUCHDEVICE
  else if v.toList = ['H', 'D'] then Except.ok OsuMods.HIDDEN
  else if v.toList = ['H', 'R'] then Except.ok OsuMods.HARDROCK
  else if v.toList = ['S', 'D'] then Except.ok OsuMods.SUDDENDEATH
  else if v.toList = ['D', 'T'] then Except.ok OsuMods.DOUBLETIME
  else if v.toList = ['R', 'X'] then Except.ok OsuMods.RELAX
  else if v.toList = ['H', 'T'] then Except.ok OsuMods.HALFTIME
  else if v.toList = ['N', 'C'] then Except.ok OsuMods.NIGHTCORE
  else if v.toList = ['F', 'L'] then Except.ok OsuMods.FLASHLIGHT
  else if v.toList = ['S', 'O'] then Except.ok OsuMods.SPUNOUT
  else if v.toList = ['P', 'F'] then Except.ok OsuMods.PERFECT
  else if v.toList = ['F', 'D'] then Except.ok OsuMods.FADEIN
  else Except.error (DeError.invalidValue v "valid mods acronym")

/-- The acronym table recognized by both decoders (as character pairs). -/
def acronymStrings : List (List Char) :=
  [['N', 'M'], ['N', 'F'], ['E', 'Z'], ['T', 'D'], ['H', 'D'],
   ['H', 'R'], ['S', 'D'], ['D', 'T'], ['R', 'X'], ['H', 'T'],
   ['N', 'C'], ['F', 'L'], ['S', 'O'], ['P', 'F'], ['F', 'D']]

/-- osu_api.rs: struct BeatmapCompact. -/
structure BeatmapCompact where
  version : String

/-- osu_api.rs: struct BeatmapSetCompact. -/
structure BeatmapSetCompact where
  artist : String
  artist_unicode : String
  creator : String
  source : String
  title : String
  title_unicode : String

/-- osu_api.rs: struct Score.  f32 fields are carried as Float and the
chrono UTC timestamp as an integer; neither is computed with. -/
structure Score where
  id : Int
  best_id : Int
  user_id : Int
  accuracy : Float
  mods : OsuMods
  score : Int
  pp : Float
  created_at : Int
  replay : Bool
  beatmapset : BeatmapSetCompact
  beatmap : BeatmapCompact

/-- osu_api.rs: struct UserCompact. -/
structure UserCompact where
  id : Int
  username : String

/-- osu_api.rs: struct UserStatistics. -/
structure UserStatistics where
  pp : Float
  global_rank : Int
  user : UserCompact

/-- osu_api.rs: struct RankingResponse. -/
structure RankingResponse where
  ranking : List UserStatistics
  total : Int

/-- osu_api.rs: struct OauthResponse. -/
structure OauthResponse where
  token_type : String
  expires_in : Int
  access_token : String

/-- osu_api.rs: struct OsuApi.  The hyper connection pool is external
state the program never inspects, so only the credential and token
fields are carried. -/
structure OsuApi where
  client_id : Int
  client_secret : String
  token : Option String

/-- osu_api.rs: enum RankingType. -/
inductive RankingType where
  | Country (code : String)
  | Global

/-- A serde decoder for a value of type T (serde_json::from_slice),
abstracting the external serde_json crate: either a decoded value or
the decode error message. -/
abbrev Decoder (T : Type) := Bytes → Except String T

/-- The outcome of one HTTP exchange performed by the external hyper
client: a transport error, or a status code with the response body. -/
abbrev HttpOutcome := Except TransportError (Nat × Bytes)

/-- osu_api.rs: OsuApi::handle_error.  The body bytes are read first
(they are an input here); then the status code is classified, and for a
status outside the four explicit arms the body is decoded as a
structured API error body. -/
def handle_error (decodeApiErr : Decoder ApiErrorResponse)
    (status : Nat) (bytes : Bytes) : Except OsuApiError Bytes :=
  if status = 200 then Except.ok bytes
  else if status = 400 then Except.error OsuApiError.BadRequest
  else if status = 429 then Except.error OsuApiError.RateLimited
  else if status = 503 then Except.error OsuApiError.ServiceUnavailable
  else
    match decodeApiErr bytes with
    | Except.error e => Except.error (OsuApiError.ParsingError e bytes)
    | Except.ok err => Except.error (OsuApiError.ApiError err)

/-- osu_api.rs: OsuApi::parse_bytes, decoding a success body into the
expected schema and keeping the raw bytes on failure. -/
def parse_bytes {T : Type} (decode : Decoder T) (bytes : Bytes) :
    Except OsuApiError T :=
  match decode bytes with
  | Except.error e => Except.error (OsuApiError.ParsingError e bytes)
  | Except.ok v => Except.ok v

/-- osu_api.rs: OsuApi::make_request (generic over the response type,
here over its decoder).  Token check, then the exchange (request
building and sending, whose failures lift into OsuApiError), then
status classification, then schema decode. -/
def make_request {T : Type} (token : Option String) (outcome : HttpOutcome)
    (decodeApiErr : Decoder ApiErrorResponse) (decode : Decoder T) :
    Except OsuApiError T :=
  match token with
  | none => Except.error OsuApiError.NoToken
  | some _ =>
    match outcome with
    | Except.error te => Except.error te.lift
    | Except.ok (status, body) =>
      match handle_error decodeApiErr status body with
      | Except.error e => Except.error e
      | Except.ok bytes => parse_bytes decode bytes

/-- osu_api.rs: the link built by OsuApi::get_user_best_scores. -/
def user_best_scores_link (user_id : Int) : String :=
  "https://osu.ppy.sh/api/v2/users/" ++ toString user_id ++
    "/scores/best?mode=osu&limit=100"

/-- osu_api.rs: OsuApi::get_user_best_scores.  The network is the
oracle net from links to exchange outcomes. -/
def get_user_best_scores (token : Option String)
    (net : String → HttpOutcome) (decodeApiErr : Decoder ApiErrorResponse)
    (decodeScores : Decoder (List Score)) (user_id : Int) :
    Except OsuApiError (List Score) :=
  make_request token (net (user_best_scores_link user_id))
    decodeApiErr decodeScores

/-- osu_api.rs: the per-page link built inside OsuApi::get_ranking. -/
def ranking_link (ranking : RankingType) (page : Int) : String :=
  match ranking with
  | RankingType.Country code =>
    "https://osu.ppy.sh/api/v2/rankings/osu/performance?country=" ++ code ++
      "&cursor[page]=" ++ toString page
  | RankingType.Global =>
    "https://osu.ppy.sh/api/v2/rankings/osu/performance?cursor[page]=" ++
      toString page

/-- The page numbers iterated by the for loop 1..=pages (empty when
pages is not positive, as for the Rust range). -/
def pageRange (pages : Int) : List Int :=
  (List.range pages.toNat).map (fun i => Int.ofNat i + 1)

/-- The loop of OsuApi::get_ranking over the remaining page numbers,
carrying the accumulator buff.  Besides the Rust result it also returns
the trace of links actually requested, in order, so that the requests
issued are part of the embedded behaviour; the question-mark operator
aborts the loop on the first failing page. -/
def get_ranking_loop (token : Option String) (net : String → HttpOutcome)
    (decodeApiErr : Decoder ApiErrorResponse)
    (decodeRanking : Decoder RankingResponse) (ranking : RankingType) :
    List Int → List UserStatistics →
      Except OsuApiError (List UserStatistics) × List String
  | [], buff => (Except.ok buff, [])
  | page :: rest, buff =>
    let link := ranking_link ranking page
    match make_request token (net link) decodeApiErr decodeRanking with
    | Except.error e => (Except.error e, [link])
    | Except.ok r =>
      let next := get_ranking_loop token net decodeApiErr decodeRanking
        ranking rest (buff ++ r.ranking)
      (next.1, link :: next.2)

/-- osu_api.rs: OsuApi::get_ranking, paired with its request trace. -/
def get_ranking (token : Option String) (net : String → HttpOutcome)
    (decodeApiErr : Decoder ApiErrorResponse)
    (decodeRanking : Decoder RankingResponse) (ranking : RankingType)
    (pages : Int) :
    Except OsuApiError (List UserStatistics) × List String :=
  get_ranking_loop token net decodeApiErr decodeRanking ranking
    (pageRange pages) []

/-- osu_api.rs: OsuApi::request_oauth, the OAuth exchange performed on
the oauth endpoint outcome: status classification, then decode of the
OauthResponse body, then extraction of the access token. -/
def request_oauth (outcome : HttpOutcome)
    (decodeApiErr : Decoder ApiErrorResponse)
    (decodeOauth : Decoder OauthResponse) : Except OsuApiError String :=
  match outcome with
  | Except.error te => Except.error te.lift
  | Except.ok (status, body) =>
    match handle_error decodeApiErr status body with
    | Except.error e => Except.error e
    | Except.ok bytes =>
      match parse_bytes decodeOauth bytes with
      | Except.error e => Except.error e
      | Except.ok r => Except.ok r.access_token

/-- osu_api.rs: OsuApi::new.  The struct starts with token none, then
the oauth exchange fills it; the question mark aborts construction on
failure, so a returned client always carries the acquired token. -/
def OsuApi.new (client_id : Int) (client_secret : String)
    (outcome : HttpOutcome) (decodeApiErr : Decoder ApiErrorResponse)
    (decodeOauth : Decoder OauthResponse) : Except OsuApiError OsuApi :=
  let api : OsuApi :=
    { client_id := client_id, client_secret := client_secret, token := none }
  match request_oauth outcome decodeApiErr decodeOauth with
  | Except.error e => Except.error e
  | Except.ok tok => Except.ok { api with token := some tok }

/-- main.rs: struct Period (chrono timestamps as integers). -/
structure Period where
  start : Int
  stop : Int

/-- main.rs: struct Output.  The date field is the formatted created_at
timestamp; the chrono formatter is external and injective on timestamps,
so the timestamp itself is carried. -/
structure Output where
  username : String
  pp : Float
  date : Int
  replay : Bool
  score_link : String
  map : String
  diff : String
  mods : String
  country_rank : Int
  global_rank : Int
  total_pp : Float

/-- main.rs: the score filter closure of process_score, keeping a score
when created_at is strictly inside the period. -/
def scoreInPeriod (period : Period) (x : Score) : Bool :=
  x.created_at > period.start && x.created_at < period.stop

/-- main.rs: process_score.  The get_user_best_scores call is the oracle
getBest (already closed over the api client); on success the filtered
scores are mapped to the Output rows the task sends into the channel,
on failure the question mark returns the error with no rows sent. -/
def process_score (getBest : Int → Except OsuApiError (List Score))
    (user_stats : UserStatistics) (index : Nat) (period : Period) :
    Except OsuApiError (List Output) :=
  let user := user_stats.user
  match getBest user.id with
  | Except.error e => Except.error e
  | Except.ok scores =>
    Except.ok ((scores.filter (fun x => scoreInPeriod period x)).map
      (fun score =>
        { username := user.username
          pp := score.pp
          date := score.created_at
          replay := score.replay
          score_link := "https://osu.ppy.sh/scores/osu/" ++ toString score.id
          map := score.beatmapset.artist ++ " - " ++ score.beatmapset.title
          diff := score.beatmap.version
          mods := OsuMods.to_string score.mods
          country_rank := (index : Int) + 1
          global_rank := user_stats.global_rank
          total_pp := user_stats.pp }))

/-- main.rs: fetch_thread.  One task per enumerated user (the first
amount of them); each task runs process_score and discards its error
with a let underscore.  The rows collected over the channel are, up to
the scheduler interleaving across users, the concatenation of the rows
of each task; the embedding fixes the spawn order as the interleaving. -/
def fetch_thread (getBest : Int → Except OsuApiError (List Score))
    (users : List UserStatistics) (amount : Nat) (period : Period) :
    List Output :=
  (users.enum.take amount).flatMap (fun p =>
    match process_score getBest p.2 p.1 period with
    | Except.ok rows => rows
    | Except.error _ => [])

/-- ModSet value built from the twelve flags handled by both directions
of the codec (used to state the round-trip property over exactly the
values generated by those flags). -/
def mkMods (bNF bEZ bTD bHD bHR bSD bDT bHT bNC bFL bSO bPF : Bool) :
    OsuMods :=
  (((((((((((if bNF then OsuMods.NOFAIL else OsuMods.empty).union
    (if bEZ then OsuMods.EASY else OsuMods.empty)).union
    (if bTD then OsuMods.TOUCHDEVICE else OsuMods.empty)).union
    (if bHD then OsuMods.HIDDEN else OsuMods.empty)).union
    (if bHR then OsuMods.HARDROCK else OsuMods.empty)).union
    (if bSD then OsuMods.SUDDENDEATH else OsuMods.empty)).union
    (if bDT then OsuMods.DOUBLETIME else OsuMods.empty)).union
    (if bHT then OsuMods.HALFTIME else OsuMods.empty)).union
    (if bNC then OsuMods.NIGHTCORE else OsuMods.empty)).union
    (if bFL then OsuMods.FLASHLIGHT else OsuMods.empty)).union
    (if bSO then OsuMods.SPUNOUT else OsuMods.empty)).union
    (if bPF then OsuMods.PERFECT else OsuMods.empty)

/-- C1: for every HTTP response, status classification in handle_error is
exact: 200 yields the body bytes, 400 yields BadRequest, 429 yields
RateLimited regardless of body content, 503 yields ServiceUnavailable,
and any other status yields ApiError when the body decodes as a
structured error body, otherwise ParsingError carrying the raw body. -/
theorem handle_error_status_classification
    (decodeApiErr : Decoder ApiErrorResponse) (status : Nat) (bytes : Bytes) :
    (status = 200 →
      handle_error decodeApiErr status bytes = Except.ok bytes) ∧
    (status = 400 →
      handle_error decodeApiErr status bytes =
        Except.error OsuApiError.BadRequest) ∧
    (status = 429 →
      handle_error decodeApiErr status bytes =
        Except.error OsuApiError.RateLimited) ∧
    (status = 503 →
      handle_error decodeApiErr status bytes =
        Except.error OsuApiError.ServiceUnavailable) ∧
    (status ≠ 200 → status ≠ 400 → status ≠ 429 → status ≠ 503 →
      (∀ err, decodeApiErr bytes = Except.ok err →
        handle_error decodeApiErr status bytes =
          Except.error (OsuApiError.ApiError err)) ∧
      (∀ msg, decodeApiErr bytes = Except.error msg →
        handle_error decodeApiErr status bytes =
          Except.error (OsuApiError.ParsingError msg bytes))) := by
  refine ⟨?_, ?_, ?_, ?_, ?_⟩
  · intro h; subst h; simp [handle_error]
  · intro h; subst h; simp [handle_error]
  · intro h; subst h; simp [handle_error]
  · intro h; subst h; simp [handle_error]
  · intro h200 h400 h429 h503
    constructor
    · intro err herr
      simp [handle_error, h200, h400, h429, h503, herr]
    · intro msg hmsg
      simp [handle_error, h200, h400, h429, h503, hmsg]

theorem handle_error_status_classification_witness :
    handle_error (fun _ => Except.error "malformed") 429 [1, 2, 3] =
      Except.error OsuApiError.RateLimited :=
  (handle_error_status_classification
    (fun _ => Except.error "malformed") 429 [1, 2, 3]).2.2.1 rfl

/-- C2: a 200 response whose body fails the schema decode makes
make_request return ParsingError, never ApiError, and the error carries
the original body bytes unchanged. -/
theorem make_request_ok_status_decode_failure {T : Type}
    (tok : String) (bytes : Bytes)
    (decodeApiErr : Decoder ApiErrorResponse) (decode : Decoder T)
    (msg : String) (h : decode bytes = Except.error msg) :
    make_request (some tok) (Except.ok (200, bytes)) decodeApiErr decode =
      Except.error (OsuApiError.ParsingError msg bytes) := by
  simp [make_request, handle_error, parse_bytes, h]

theorem make_request_ok_status_decode_failure_witness :
    make_request (some "t") (Except.ok (200, [7, 7]))
      (fun _ => Except.error "e")
      (fun _ => (Except.error "boom" : Except String Nat)) =
      Except.error (OsuApiError.ParsingError "boom" [7, 7]) :=
  make_request_ok_status_decode_failure "t" [7, 7]
    (fun _ => Except.error "e") (fun _ => Except.error "boom") "boom" rfl

/-- C5: a score survives the time filter exactly when its timestamp is
strictly between the period bounds; a score exactly at either bound is
excluded. -/
theorem score_time_filter_strict (period : Period) (x : Score) :
    (scoreInPeriod period x = true ↔
      period.start < x.created_at ∧ x.created_at < period.stop) ∧
    (x.created_at = period.start → scoreInPeriod period x = false) ∧
    (x.created_at = period.stop → scoreInPeriod period x = false) := by
  refine ⟨?_, ?_, ?_⟩
  · simp [scoreInPeriod]
  · intro h; simp [scoreInPeriod, h]
  · intro h; simp [scoreInPeriod, h]

theorem score_time_filter_strict_witness :
    scoreInPeriod ⟨0, 10⟩
      ⟨1, 1, 1, 0.0, ⟨0⟩, 100, 0.0, 5, false,
        ⟨"a", "b", "c", "d", "e", "f"⟩, ⟨"v"⟩⟩ = true :=
  (score_time_filter_strict ⟨0, 10⟩
    ⟨1, 1, 1, 0.0, ⟨0⟩, 100, 0.0, 5, false,
      ⟨"a", "b", "c", "d", "e", "f"⟩, ⟨"v"⟩⟩).1.mpr (by decide)

/-- C7: in the fan-out, a failing per-user fetch leaves the run intact:
the collected rows are exactly the concatenation of the rows of the
users whose fetches succeeded, and a unit whose fetch fails returns the
error at the unit boundary, contributing zero rows. -/
theorem fetch_thread_error_isolation
    (getBest : Int → Except OsuApiError (List Score))
    (users : List UserStatistics) (amount : Nat) (period : Period) :
    (fetch_thread getBest users amount period =
      ((users.enum.take amount).filter
        (fun p => (getBest p.2.user.id).isOk)).flatMap (fun p =>
          match process_score getBest p.2 p.1 period with
          | Except.ok rows => rows
          | Except.error _ => [])) ∧
    (∀ u i e, getBest u.user.id = Except.error e →
      process_score getBest u i period = Except.error e) := by
  constructor
  · unfold fetch_thread
    have key : ∀ l : List (Nat × UserStatistics),
        (l.flatMap (fun p =>
          match process_score getBest p.2 p.1 period with
          | Except.ok rows => rows
          | Except.error _ => [])) =
        ((l.filter (fun p => (getBest p.2.user.id).isOk)).flatMap (fun p =>
          match process_score getBest p.2 p.1 period with
          | Except.ok rows => rows
          | Except.error _ => [])) := by
      intro l
      induction l with
      | nil => rfl
      | cons p rest ih =>
        cases hg : getBest p.2.user.id with
        | error e =>
          have hrow : process_score getBest p.2 p.1 period =
              Except.error e := by
            simp [process_score, hg]
          simp [List.flatMap_cons, List.filter_cons, hg, hrow, ih,
            Except.isOk, Except.toBool]
        | ok s =>
          simp [List.flatMap_cons, List.filter_cons, hg, ih, Except.isOk,
            Except.toBool]
    exact key _
  · intro u i e h
    simp [process_score, h]

theorem fetch_thread_error_isolation_witness :
    process_score (fun _ => Except.error OsuApiError.RateLimited)
      ⟨0.0, 1, ⟨1, "user"⟩⟩ 0 ⟨0, 10⟩ =
      Except.error OsuApiError.RateLimited :=
  (fetch_thread_error_isolation
    (fun _ => Except.error OsuApiError.RateLimited) [] 0 ⟨0, 10⟩).2
    ⟨0.0, 1, ⟨1, "user"⟩⟩ 0 OsuApiError.RateLimited rfl

lemma get_ranking_loop_ok (token : Option String)
    (net : String → HttpOutcome) (d1 : Decoder ApiErrorResponse)
    (d2 : Decoder RankingResponse) (rt : RankingType)
    (f : Int → RankingResponse) :
    ∀ (ps : List Int) (buff : List UserStatistics),
      (∀ page ∈ ps,
        make_request token (net (ranking_link rt page)) d1 d2 =
          Except.ok (f page)) →
      get_ranking_loop token net d1 d2 rt ps buff =
        (Except.ok (buff ++ ps.flatMap (fun page => (f page).ranking)),
          ps.map (ranking_link rt)) := by
  intro ps
  induction ps with
  | nil => intro buff _; simp [get_ranking_loop]
  | cons page rest ih =>
    intro buff hf
    have h1 := hf page (by simp)
    simp only [get_ranking_loop, h1]
    rw [ih (buff ++ (f page).ranking) (fun q hq => hf q (by simp [hq]))]
    simp

/-- C6: when every page request succeeds, get_ranking issues exactly
pages sequential requests, one per page number 1..pages in order, and
returns the concatenation of the per-page ranking lists in page order
with the internal order of each page preserved. -/
theorem get_ranking_pages_concat (token : Option String)
    (net : String → HttpOutcome) (d1 : Decoder ApiErrorResponse)
    (d2 : Decoder RankingResponse) (rt : RankingType) (pages : Int)
    (f : Int → RankingResponse) (hpos : 1 ≤ pages)
    (hf : ∀ page ∈ pageRange pages,
      make_request token (net (ranking_link rt page)) d1 d2 =
        Except.ok (f page)) :
    get_ranking token net d1 d2 rt pages =
      (Except.ok ((pageRange pages).flatMap (fun page => (f page).ranking)),
        (pageRange pages).map (ranking_link rt)) ∧
    ((pageRange pages).map (ranking_link rt)).length = pages.toNat := by
  constructor
  · unfold get_ranking
    rw [get_ranking_loop_ok token net d1 d2 rt f (pageRange pages) [] hf]
    simp
  · rw [List.length_map]
    unfold pageRange
    rw [List.length_map, List.length_range]

theorem get_ranking_pages_concat_witness :
    get_ranking (some "t") (fun _ => Except.ok (200, ([] : Bytes)))
      (fun _ => Except.error "e")
      (fun _ => Except.ok (RankingResponse.mk [] 0)) RankingType.Global 2 =
      (Except.ok ((pageRange 2).flatMap
        (fun _ => (RankingResponse.mk [] 0).ranking)),
        (pageRange 2).map (ranking_link RankingType.Global)) ∧
    ((pageRange 2).map (ranking_link RankingType.Global)).length =
      (2 : Int).toNat :=
  get_ranking_pages_concat (some "t")
    (fun _ => Except.ok (200, ([] : Bytes))) (fun _ => Except.error "e")
    (fun _ => Except.ok (RankingResponse.mk [] 0)) RankingType.Global 2
    (fun _ => RankingResponse.mk [] 0) (by decide)
    (by
      intro p hp
      rw [show pageRange 2 = [1, 2] from by decide] at hp
      fin_cases hp <;> rfl)

lemma handle_error_not_notoken (d : Decoder ApiErrorResponse)
    (status : Nat) (bytes : Bytes) :
    handle_error d status bytes ≠ Except.error OsuApiError.NoToken := by
  unfold handle_error
  split
  · simp
  · split
    · simp
    · split
      · simp
      · split
        · simp
        · split <;> simp

lemma make_request_not_notoken {T : Type} (t : String)
    (outcome : HttpOutcome) (d1 : Decoder ApiErrorResponse)
    (d2 : Decoder T) :
    make_request (some t) outcome d1 d2 ≠
      Except.error OsuApiError.NoToken := by
  unfold make_request
  cases outcome with
  | error te => cases te <;> simp [TransportError.lift]
  | ok p =>
    obtain ⟨status, body⟩ := p
    cases hh : handle_error d1 status body with
    | error e =>
      simp only [hh]
      intro hc
      exact handle_error_not_notoken d1 status body (hh.trans (by
        injection hc with h1
        rw [h1]))
    | ok bytes =>
      simp only [hh, parse_bytes]
      cases hd : d2 bytes <;> simp

lemma get_ranking_loop_not_notoken (t : String)
    (net : String → HttpOutcome) (d1 : Decoder ApiErrorResponse)
    (d2 : Decoder RankingResponse) (rt : RankingType) :
    ∀ (ps : List Int) (buff : List UserStatistics),
      (get_ranking_loop (some t) net d1 d2 rt ps buff).1 ≠
        Except.error OsuApiError.NoToken := by
  intro ps
  induction ps with
  | nil => intro buff; simp [get_ranking_loop]
  | cons page rest ih =>
    intro buff
    simp only [get_ranking_loop]
    cases hm : make_request (some t) (net (ranking_link rt page)) d1 d2 with
    | error e =>
      simp only [hm]
      intro hc
      have he : e = OsuApiError.NoToken := by injection hc
      exact make_request_not_notoken t (net (ranking_link rt page)) d1 d2
        (by rw [hm, he])
    | ok r =>
      simp only [hm]
      exact ih _

/-- C10: a client successfully returned by OsuApi::new carries the token
acquired during construction, and with that token neither get_ranking
nor get_user_best_scores can ever return NoToken, for any network
behaviour and any decoders. -/
theorem new_client_never_notoken (client_id : Int) (client_secret : String)
    (outcome : HttpOutcome) (dErr : Decoder ApiErrorResponse)
    (dOauth : Decoder OauthResponse) (api : OsuApi)
    (h : OsuApi.new client_id client_secret outcome dErr dOauth =
      Except.ok api) :
    (∃ t, api.token = some t) ∧
    (∀ (net : String → HttpOutcome) (d1 : Decoder ApiErrorResponse)
      (d2 : Decoder RankingResponse) (rt : RankingType) (pages : Int),
      (get_ranking api.token net d1 d2 rt pages).1 ≠
        Except.error OsuApiError.NoToken) ∧
    (∀ (net : String → HttpOutcome) (d1 : Decoder ApiErrorResponse)
      (d2 : Decoder (List Score)) (uid : Int),
      get_user_best_scores api.token net d1 d2 uid ≠
        Except.error OsuApiError.NoToken) := by
  have htok : ∃ t, api.token = some t := by
    unfold OsuApi.new at h
    cases hr : request_oauth outcome dErr dOauth with
    | error e => rw [hr] at h; exact absurd h (by simp)
    | ok tok =>
      rw [hr] at h
      refine ⟨tok, ?_⟩
      have := congrArg (fun r => match r with
        | Except.ok (a : OsuApi) => a.token
        | Except.error _ => none) h
      simpa using this.symm
  obtain ⟨t, ht⟩ := htok
  refine ⟨⟨t, ht⟩, ?_, ?_⟩
  · intro net d1 d2 rt pages
    rw [ht]
    unfold get_ranking
    exact get_ranking_loop_not_notoken t net d1 d2 rt (pageRange pages) []
  · intro net d1 d2 uid
    rw [ht]
    unfold get_user_best_scores
    exact make_request_not_notoken t (net (user_best_scores_link uid)) d1 d2

theorem new_client_never_notoken_witness :
    get_user_best_scores (some "tok")
      (fun _ => Except.ok (200, ([] : Bytes))) (fun _ => Except.error "e")
      (fun _ => Except.ok ([] : List Score)) 7 ≠
      Except.error OsuApiError.NoToken :=
  (new_client_never_notoken 1 "secret" (Except.ok (200, ([] : Bytes)))
    (fun _ => Except.error "e")
    (fun _ => Except.ok (OauthResponse.mk "Bearer" 3600 "tok"))
    ⟨1, "secret", some "tok"⟩ rfl).2.2
    (fun _ => Except.ok (200, ([] : Bytes))) (fun _ => Except.error "e")
    (fun _ => Except.ok ([] : List Score)) 7

lemma to_uppercase_nil : to_uppercase [] = [] := rfl

lemma to_uppercase_append (l1 l2 : List Char) :
    to_uppercase (l1 ++ l2) = to_uppercase l1 ++ to_uppercase l2 := by
  simp [to_uppercase]

lemma to_uppercase_if (c : Bool) (l1 l2 : List Char) :
    to_uppercase (if c then l1 else l2) =
      if c then to_uppercase l1 else to_uppercase l2 := by
  cases c <;> rfl

lemma upperNF : to_uppercase ['N', 'F'] = ['N', 'F'] := by decide

lemma upperEZ : to_uppercase ['E', 'Z'] = ['E', 'Z'] := by decide

lemma upperTD : to_uppercase ['T', 'D'] = ['T', 'D'] := by decide

lemma upperHD : to_uppercase ['H', 'D'] = ['H', 'D'] := by decide

lemma upperNC : to_uppercase ['N', 'C'] = ['N', 'C'] := by decide

lemma upperDT : to_uppercase ['D', 'T'] = ['D', 'T'] := by decide

lemma upperHT : to_uppercase ['H', 'T'] = ['H', 'T'] := by decide

lemma upperFL : to_uppercase ['F', 'L'] = ['F', 'L'] := by decide

lemma upperHR : to_uppercase ['H', 'R'] = ['H', 'R'] := by decide

lemma upperSD : to_uppercase ['S', 'D'] = ['S', 'D'] := by decide

lemma upperSO : to_uppercase ['S', 'O'] = ['S', 'O'] := by decide

lemma upperPF : to_uppercase ['P', 'F'] = ['P', 'F'] := by decide

lemma upperMR : to_uppercase ['M', 'R'] = ['M', 'R'] := by decide

lemma cut2_cond (c : Bool) (a b : Char) (rest : List Char) :
    cut2 ((if c then [a, b] else []) ++ rest) =
      (if c then [[a, b]] else []) ++ cut2 rest := by
  cases c <;> simp [cut2]

lemma cut2_cond2 (c d : Bool) (a b a2 b2 : Char) (rest : List Char) :
    cut2 ((if c then (if d then [a, b] else [a2, b2]) else []) ++ rest) =
      (if c then (if d then [[a, b]] else [[a2, b2]]) else []) ++
        cut2 rest := by
  cases c <;> cases d <;> simp [cut2]

lemma cut2_cond_last (c : Bool) (a b : Char) :
    cut2 (if c then [a, b] else []) = if c then [[a, b]] else [] := by
  cases c <;> simp [cut2]

lemma foldl_cond (c : Bool) (x : List Char) (rest : List (List Char))
    (acc : OsuMods) :
    ((if c then [x] else []) ++ rest).foldl modFromAcr acc =
      rest.foldl modFromAcr (if c then modFromAcr acc x else acc) := by
  cases c <;> simp

lemma foldl_cond2 (c d : Bool) (x y : List Char)
    (rest : List (List Char)) (acc : OsuMods) :
    ((if c then (if d then [x] else [y]) else []) ++ rest).foldl
        modFromAcr acc =
      rest.foldl modFromAcr
        (if c then (if d then modFromAcr acc x else modFromAcr acc y)
         else acc) := by
  cases c <;> cases d <;> simp

lemma foldl_last (c : Bool) (x : List Char) (acc : OsuMods) :
    ((if c then [x] else []) : List (List Char)).foldl modFromAcr acc =
      (if c then modFromAcr acc x else acc) := by
  cases c <;> simp

lemma modAcrNF (acc : OsuMods) :
    modFromAcr acc ['N', 'F'] = acc.union OsuMods.NOFAIL := rfl

lemma modAcrEZ (acc : OsuMods) :
    modFromAcr acc ['E', 'Z'] = acc.union OsuMods.EASY := rfl

lemma modAcrTD (acc : OsuMods) :
    modFromAcr acc ['T', 'D'] = acc.union OsuMods.TOUCHDEVICE := rfl

lemma modAcrHD (acc : OsuMods) :
    modFromAcr acc ['H', 'D'] = acc.union OsuMods.HIDDEN := rfl

lemma modAcrNC (acc : OsuMods) :
    modFromAcr acc ['N', 'C'] = acc.union OsuMods.NIGHTCORE := rfl

lemma modAcrDT (acc : OsuMods) :
    modFromAcr acc ['D', 'T'] = acc.union OsuMods.DOUBLETIME := rfl

lemma modAcrHT (acc : OsuMods) :
    modFromAcr acc ['H', 'T'] = acc.union OsuMods.HALFTIME := rfl

lemma modAcrFL (acc : OsuMods) :
    modFromAcr acc ['F', 'L'] = acc.union OsuMods.FLASHLIGHT := rfl

lemma modAcrHR (acc : OsuMods) :
    modFromAcr acc ['H', 'R'] = acc.union OsuMods.HARDROCK := rfl

lemma modAcrSD (acc : OsuMods) :
    modFromAcr acc ['S', 'D'] = acc.union OsuMods.SUDDENDEATH := rfl

lemma modAcrSO (acc : OsuMods) :
    modFromAcr acc ['S', 'O'] = acc.union OsuMods.SPUNOUT := rfl

lemma modAcrPF (acc : OsuMods) :
    modFromAcr acc ['P', 'F'] = acc.union OsuMods.PERFECT := rfl

lemma modAcrMR (acc : OsuMods) :
    modFromAcr acc ['M', 'R'] = acc := rfl

/-- C3 counterexample: MIRROR is a representable ModSet value (a declared
flag), its encoding is the acronym MR, but the lenient decoder does not
recognize MR, so the round-trip collapses MIRROR to the empty set. -/
theorem from_str_to_string_mirror_not_roundtrip :
    OsuMods.from_str (OsuMods.to_string OsuMods.MIRROR) =
      Except.ok OsuMods.empty ∧
    OsuMods.empty ≠ OsuMods.MIRROR := by decide

/-- C3 amended: the round-trip decode_lenient (encode m) = m holds for
every ModSet m built from the twelve flags the codec supports in both
directions (NOFAIL, EASY, TOUCHDEVICE, HIDDEN, HARDROCK, SUDDENDEATH,
DOUBLETIME, HALFTIME, NIGHTCORE, FLASHLIGHT, SPUNOUT, PERFECT); it fails
on sets containing RELAX, FADEIN or SCOREV2 (never encoded) or MIRROR
(encoded as MR, which the decoder ignores). -/
theorem from_str_to_string_roundtrip_codec
    (bNF bEZ bTD bHD bHR bSD bDT bHT bNC bFL bSO bPF : Bool) :
    OsuMods.from_str (OsuMods.to_string
      (mkMods bNF bEZ bTD bHD bHR bSD bDT bHT bNC bFL bSO bPF)) =
      Except.ok (mkMods bNF bEZ bTD bHD bHR bSD bDT bHT bNC bFL bSO bPF) := by
  unfold OsuMods.to_string
  rw [apply_ite OsuMods.from_str]
  rw [show OsuMods.from_str "NM" = Except.ok OsuMods.NOMOD from by decide]
  simp only [OsuMods.from_str, String.toList]
  simp only [List.append_assoc]
  simp only [to_uppercase_append, to_uppercase_if, to_uppercase_nil,
    upperNF, upperEZ, upperTD, upperHD, upperNC, upperDT, upperHT,
    upperFL, upperHR, upperSD, upperSO, upperPF, upperMR]
  simp only [cut2_cond, cut2_cond2, cut2_cond_last]
  simp only [foldl_cond, foldl_cond2, foldl_last, modAcrNF, modAcrEZ,
    modAcrTD, modAcrHD, modAcrNC, modAcrDT, modAcrHT, modAcrFL, modAcrHR,
    modAcrSD, modAcrSO, modAcrPF, modAcrMR]
  revert bNF bEZ bTD bHD bHR bSD bDT bHT bNC bFL bSO bPF
  decide

lemma count_cond (x y : List Char) (c : Bool) :
    List.count x ((if c then [y] else []) : List (List Char)) =
      if c then (if y = x then 1 else 0) else 0 := by
  cases c <;> by_cases h : y = x <;> simp [h, List.count_cons]

lemma count_cond2 (x y z : List Char) (c d : Bool) :
    List.count x ((if c then (if d then [y] else [z]) else []) :
        List (List Char)) =
      if c then
        (if d then (if y = x then 1 else 0) else (if z = x then 1 else 0))
      else 0 := by
  cases c <;> cases d <;> by_cases h : y = x <;> by_cases h2 : z = x <;>
    simp [h, h2, List.count_cons]

lemma contains_nightcore_doubletime (m : OsuMods)
    (h : m.contains OsuMods.NIGHTCORE = true) :
    m.contains OsuMods.DOUBLETIME = true := by
  unfold OsuMods.contains at h ⊢
  rw [beq_iff_eq] at h ⊢
  have hn : OsuMods.NIGHTCORE.bits = 576 := rfl
  have hd : OsuMods.DOUBLETIME.bits = 64 := rfl
  rw [hn] at h
  rw [hd]
  have h1 : (576 &&& 64 : Nat) = 64 := by decide
  calc m.bits &&& 64 = m.bits &&& (576 &&& 64) := by rw [h1]
    _ = (m.bits &&& 576) &&& 64 := (Nat.land_assoc m.bits 576 64).symm
    _ = 576 &&& 64 := by rw [h]
    _ = 64 := by decide

lemma contains_perfect_suddendeath (m : OsuMods)
    (h : m.contains OsuMods.PERFECT = true) :
    m.contains OsuMods.SUDDENDEATH = true := by
  unfold OsuMods.contains at h ⊢
  rw [beq_iff_eq] at h ⊢
  have hn : OsuMods.PERFECT.bits = 16416 := rfl
  have hd : OsuMods.SUDDENDEATH.bits = 32 := rfl
  rw [hn] at h
  rw [hd]
  have h1 : (16416 &&& 32 : Nat) = 32 := by decide
  calc m.bits &&& 32 = m.bits &&& (16416 &&& 32) := by rw [h1]
    _ = (m.bits &&& 16416) &&& 32 := (Nat.land_assoc m.bits 16416 32).symm
    _ = 16416 &&& 32 := by rw [h]
    _ = 32 := by decide

lemma contains_not_empty (m f : OsuMods) (h : m.contains f = true)
    (hf : f.bits ≠ 0) : m.is_empty = false := by
  unfold OsuMods.contains at h
  unfold OsuMods.is_empty
  rw [beq_iff_eq] at h
  rw [beq_eq_false_iff_ne]
  intro h0
  rw [h0, Nat.zero_and] at h
  exact hf h.symm

/-- C4 counterexample: PERFECT contains the full alias bit pattern
(16384 plus SUDDENDEATH), yet its encoding chunks into SD followed by
PF: the constituent acronym SD is emitted separately alongside the
alias acronym. -/
theorem to_string_perfect_emits_constituent_sd :
    List.count ['S', 'D']
      (cut2 (OsuMods.to_string OsuMods.PERFECT).toList) = 1 ∧
    List.count ['P', 'F']
      (cut2 (OsuMods.to_string OsuMods.PERFECT).toList) = 1 := by decide

/-- C4 amended: for every ModSet containing the NIGHTCORE alias pattern
the encoder emits NC exactly once and never the constituent DT; for
every ModSet containing the PERFECT alias pattern the encoder emits PF
exactly once but additionally emits the constituent SD exactly once. -/
theorem alias_acronym_emission (m : OsuMods) :
    (m.contains OsuMods.NIGHTCORE = true →
      List.count ['N', 'C'] (cut2 (OsuMods.to_string m).toList) = 1 ∧
      List.count ['D', 'T'] (cut2 (OsuMods.to_string m).toList) = 0) ∧
    (m.contains OsuMods.PERFECT = true →
      List.count ['P', 'F'] (cut2 (OsuMods.to_string m).toList) = 1 ∧
      List.count ['S', 'D'] (cut2 (OsuMods.to_string m).toList) = 1) := by
  constructor
  · intro h
    have hdt := contains_nightcore_doubletime m h
    have hne : m.is_empty = false :=
      contains_not_empty m OsuMods.NIGHTCORE h (by decide)
    unfold OsuMods.to_string
    simp only [hne, Bool.false_eq_true, if_false]
    simp only [String.toList]
    simp only [List.append_assoc]
    simp only [cut2_cond, cut2_cond2, cut2_cond_last]
    simp only [List.count_append, count_cond, count_cond2]
    simp [h, hdt]
  · intro h
    have hsd := contains_perfect_suddendeath m h
    have hne : m.is_empty = false :=
      contains_not_empty m OsuMods.PERFECT h (by decide)
    unfold OsuMods.to_string
    simp only [hne, Bool.false_eq_true, if_false]
    simp only [String.toList]
    simp only [List.append_assoc]
    simp only [cut2_cond, cut2_cond2, cut2_cond_last]
    simp only [List.count_append, count_cond, count_cond2]
    simp [h, hsd]

theorem alias_acronym_emission_witness :
    List.count ['N', 'C']
      (cut2 (OsuMods.to_string OsuMods.NIGHTCORE).toList) = 1 ∧
    List.count ['D', 'T']
      (cut2 (OsuMods.to_string OsuMods.NIGHTCORE).toList) = 0 :=
  (alias_acronym_emission OsuMods.NIGHTCORE).1 (by decide)

lemma uppercaseChar_ascii (c : Char) (h : c.toNat < 128) :
    uppercaseChar c = [Char.toUpper c] := by
  have h1 : c ≠ 'ß' := by
    intro hh; rw [hh] at h; exact absurd h (by decide)
  have h2 : c ≠ 'ﬀ' := by
    intro hh; rw [hh] at h; exact absurd h (by decide)
  have h3 : c ≠ 'ﬁ' := by
    intro hh; rw [hh] at h; exact absurd h (by decide)
  have h4 : c ≠ 'ﬂ' := by
    intro hh; rw [hh] at h; exact absurd h (by decide)
  have h5 : c ≠ 'ﬃ' := by
    intro hh; rw [hh] at h; exact absurd h (by decide)
  have h6 : c ≠ 'ﬄ' := by
    intro hh; rw [hh] at h; exact absurd h (by decide)
  have h7 : c ≠ 'ﬅ' := by
    intro hh; rw [hh] at h; exact absurd h (by decide)
  have h8 : c ≠ 'ﬆ' := by
    intro hh; rw [hh] at h; exact absurd h (by decide)
  unfold uppercaseChar
  rw [if_neg h1, if_neg h2, if_neg h3, if_neg h4, if_neg h5, if_neg h6,
    if_neg h7, if_neg h8]

/-- C8 counterexample: the two-character string made of the U+FB02
ligature followed by d is not a recognized acronym in any casing (the
strict decoder rejects it), yet the lenient decoder does not return the
empty set: Rust uppercasing expands the ligature, giving FLD, whose
first chunk FL is the FLASHLIGHT acronym. -/
theorem from_str_ligature_not_empty :
    "ﬂd".toList.length = 2 ∧
    visit_str "ﬂd" =
      Except.error (DeError.invalidValue "ﬂd" "valid mods acronym") ∧
    OsuMods.from_str "ﬂd" = Except.ok OsuMods.FLASHLIGHT ∧
    OsuMods.FLASHLIGHT ≠ OsuMods.empty := by decide

/-- C8 amended: for every unrecognized two-character acronym string made
of ASCII characters (its uppercase form is outside the acronym table),
the strict decoder fails with a decode error while the lenient decoder
returns the empty set without an error.  Outside ASCII the lenient half
can fail, because uppercasing may expand a character and realign the
chunks. -/
theorem strict_vs_lenient_unrecognized (s : String)
    (hlen : s.toList.length = 2)
    (hascii : ∀ c ∈ s.toList, c.toNat < 128)
    (hmem : to_uppercase s.toList ∉ acronymStrings) :
    (∃ e, visit_str s = Except.error e) ∧
    OsuMods.from_str s = Except.ok OsuMods.empty := by
  constructor
  · have g : ∀ t ∈ acronymStrings, s.toList ≠ t := by
      intro t ht hh
      apply hmem
      rw [hh]
      fin_cases ht <;> decide
    unfold visit_str
    rw [if_neg (g _ (by decide))]
    rw [if_neg (g _ (by decide))]
    rw [if_neg (g _ (by decide))]
    rw [if_neg (g _ (by decide))]
    rw [if_neg (g _ (by decide))]
    rw [if_neg (g _ (by decide))]
    rw [if_neg (g _ (by decide))]
    rw [if_neg (g _ (by decide))]
    rw [if_neg (g _ (by decide))]
    rw [if_neg (g _ (by decide))]
    rw [if_neg (g _ (by decide))]
    rw [if_neg (g _ (by decide))]
    rw [if_neg (g _ (by decide))]
    rw [if_neg (g _ (by decide))]
    rw [if_neg (g _ (by decide))]
    exact ⟨_, rfl⟩
  · obtain ⟨a, b, hab⟩ := List.length_eq_two.mp hlen
    have ha : a.toNat < 128 := hascii a (by rw [hab]; simp)
    have hb : b.toNat < 128 := hascii b (by rw [hab]; simp)
    have hup : to_uppercase [a, b] =
        [Char.toUpper a, Char.toUpper b] := by
      unfold to_uppercase
      simp [uppercaseChar_ascii a ha, uppercaseChar_ascii b hb]
    rw [hab, hup] at hmem
    unfold OsuMods.from_str
    rw [hab, hup]
    simp only [cut2, List.foldl]
    have g : ∀ t ∈ acronymStrings,
        ([Char.toUpper a, Char.toUpper b] : List Char) ≠ t := by
      intro t ht hh
      exact hmem (by rw [hh]; exact ht)
    unfold modFromAcr
    rw [if_neg (g _ (by decide))]
    rw [if_neg (g _ (by decide))]
    rw [if_neg (g _ (by decide))]
    rw [if_neg (g _ (by decide))]
    rw [if_neg (g _ (by decide))]
    rw [if_neg (g _ (by decide))]
    rw [if_neg (g _ (by decide))]
    rw [if_neg (g _ (by decide))]
    rw [if_neg (g _ (by decide))]
    rw [if_neg (g _ (by decide))]
    rw [if_neg (g _ (by decide))]
    rw [if_neg (g _ (by decide))]
    rw [if_neg (g _ (by decide))]
    rw [if_neg (g _ (by decide))]
    rw [if_neg (g _ (by decide))]

theorem strict_vs_lenient_unrecognized_witness :
    (∃ e, visit_str "XX" = Except.error e) ∧
    OsuMods.from_str "XX" = Except.ok OsuMods.empty :=
  strict_vs_lenient_unrecognized "XX" (by decide) (by decide) (by decide)

/-- C9 counterexample: the strict single-value decoder is not
case-insensitive: the lowercase spelling hd of the recognized acronym HD
is rejected with a decode error while HD decodes to HIDDEN. -/
theorem visit_str_lowercase_rejected :
    visit_str "hd" ≠ Except.ok OsuMods.HIDDEN ∧
    visit_str "HD" = Except.ok OsuMods.HIDDEN := by decide

/-- C9 amended: the strict single-value decoder is case-sensitive: it
succeeds exactly on the fifteen uppercase acronyms of its table, and
any other spelling, including lowercase or mixed-case variants of
recognized acronyms, is a decode error. -/
theorem visit_str_exact_uppercase_only :
    (∀ v : String,
      (∃ m, visit_str v = Except.ok m) ↔ v.toList ∈ acronymStrings) ∧
    visit_str "Hd" =
      Except.error (DeError.invalidValue "Hd" "valid mods acronym") ∧
    visit_str "hd" =
      Except.error (DeError.invalidValue "hd" "valid mods acronym") := by
  refine ⟨?_, by decide, by decide⟩
  intro v
  constructor
  · rintro ⟨m, hm⟩
    unfold visit_str at hm
    by_cases h1 : v.toList = ['N', 'M']
    · rw [h1]; decide
    rw [if_neg h1] at hm
    by_cases h2 : v.toList = ['N', 'F']
    · rw [h2]; decide
    rw [if_neg h2] at hm
    by_cases h3 : v.toList = ['E', 'Z']
    · rw [h3]; decide
    rw [if_neg h3] at hm
    by_cases h4 : v.toList = ['T', 'D']
    · rw [h4]; decide
    rw [if_neg h4] at hm
    by_cases h5 : v.toList = ['H', 'D']
    · rw [h5]; decide
    rw [if_neg h5] at hm
    by_cases h6 : v.toList = ['H', 'R']
    · rw [h6]; decide
    rw [if_neg h6] at hm
    by_cases h7 : v.toList = ['S', 'D']
    · rw [h7]; decide
    rw [if_neg h7] at hm
    by_cases h8 : v.toList = ['D', 'T']
    · rw [h8]; decide
    rw [if_neg h8] at hm
    by_cases h9 : v.toList = ['R', 'X']
    · rw [h9]; decide
    rw [if_neg h9] at hm
    by_cases h10 : v.toList = ['H', 'T']
    · rw [h10]; decide
    rw [if_neg h10] at hm
    by_cases h11 : v.toList = ['N', 'C']
    · rw [h11]; decide
    rw [if_neg h11] at hm
    by_cases h12 : v.toList = ['F', 'L']
    · rw [h12]; decide
    rw [if_neg h12] at hm
    by_cases h13 : v.toList = ['S', 'O']
    · rw [h13]; decide
    rw [if_neg h13] at hm
    by_cases h14 : v.toList = ['P', 'F']
    · rw [h14]; decide
    rw [if_neg h14] at hm
    by_cases h15 : v.toList = ['F', 'D']
    · rw [h15]; decide
    rw [if_neg h15] at hm
    exact absurd hm (by simp)
  · intro hv
    simp only [acronymStrings, List.mem_cons, List.not_mem_nil, or_false]
      at hv
    rcases hv with h | h | h | h | h | h | h | h | h | h | h | h | h | h |
      h <;> exact ⟨_, by unfold visit_str; rw [h]; rfl⟩

theorem visit_str_exact_uppercase_only_witness :
    ∃ m, visit_str "NM" = Except.ok m :=
  (visit_str_exact_uppercase_only.1 "NM").mpr (by decide)

end OsuScrapper
